import Mathlib

/-!
Shallow embedding of the payloadQueue batching library (src/queue.go) and
proofs about its specified behaviour.

The Go code is a single-file batching queue: payloads are appended to a
shared buffer; when the buffer reaches MaxSize or the age deadline has
passed, the whole buffer is swapped out as a batch and handed to a
work-handler running in its own goroutine; a counter of active work
routines is used to drain on Close.

The embedding is sequential and functional: the mutable receiver of the Go
methods becomes an explicit state (QState); the diagnostic feed and the
work handler become instrumentation lists inside the state (events,
workCalls); goroutine spawning in Append is represented by returning the
extracted batch, which the caller of the model may later run with runQ.
Time is an explicit integer parameter. The lock structure of Append and a
concrete two-caller interleaving are modelled separately (AOp, Shared).
-/

/-- Modelled from the spec (section 3) and the uses in src/queue.go
(lines 52, 75-87, 110-114): the Payload type is not under src/; it is a
unit of work carrying a string identifier and opaque data. An empty
identifier marks a sentinel. -/
structure Payload (α : Type) where
  id : String
  data : α
deriving DecidableEq

/-- State of a Queue value (src/queue.go lines 13-25). The Go fields
Tag, MaxSize, MaxAge, expires, payloadQueue, activeWork are carried
directly; the EventFeed callback becomes the flag hasEventFeed plus the
instrumentation list events (strings handed to the feed, in order); the
Work callback is passed to the operations as an explicit argument and its
invocations are recorded in the instrumentation list workCalls. -/
structure QState (α : Type) where
  tag : String
  maxSize : Int
  maxAge : Int
  expires : Int
  payloadQueue : List (Payload α)
  activeWork : Int
  hasEventFeed : Bool
  events : List String
  workCalls : List (List α)
deriving DecidableEq

/-- Format of one diagnostic line (src/queue.go line 150). -/
def eventLine (tag msg : String) : String :=
  "[" ++ tag ++ "] " ++ msg

/-- The event method (src/queue.go lines 148-152): if a feed is set,
format the message and forward it; forwarding is modelled by appending to
the events list. -/
def emitEvent (s : QState α) (msg : String) : QState α :=
  if s.hasEventFeed then { s with events := s.events ++ [eventLine s.tag msg] } else s

/-- Modelled from the spec (sections 4.1 and 6): the repository's
defaultTag helper (not under src/) returns a random string of the given
number of characters; the randomness is injected as a character source,
as the spec's design notes require for testability. -/
def defaultTag (rand : Nat → Char) (n : Nat) : String :=
  String.mk ((List.range n).map rand)

/-- Start (src/queue.go lines 28-73): sets expires from the CURRENT MaxAge
(line 29, before defaults are applied), fails when no Work handler is
supplied (lines 30-32), applies the MaxSize, MaxAge and Tag defaults, each
with one diagnostic event (lines 33-44), zeroes activeWork (line 45) and
emits the started event (line 71). The spawned age-monitor and intake
goroutines (lines 47-70) perform no state change at start time and are
modelled at their call sites. Returns the new state and the returned Go
error, if any. -/
def startQ (work : Option (List α → Int)) (rand : Nat → Char) (now : Int)
    (s : QState α) : QState α × Option String :=
  let sa := { s with expires := now + s.maxAge }
  match work with
  | none => (sa, some "the Work function is not supplied")
  | some _ =>
    let sb := if sa.maxSize = 0 then
        emitEvent { sa with maxSize := 100 } "MaxSize: Default value of 100 was used"
      else sa
    let sc := if sb.maxAge = 0 then
        emitEvent { sb with maxAge := 10 } "MaxAge: Default value of 10 was used"
      else sb
    let sd := if sc.tag = "" then
        emitEvent { sc with tag := defaultTag rand 12 }
          ("Tag: Random value assigned is: " ++ defaultTag rand 12)
      else sc
    let se := { sd with activeWork := 0 }
    (emitEvent se "BP Queue: Started", none)

/-- Step 1 of Append (src/queue.go lines 110-115): when the identifier is
non-empty, append the payload to the buffer (under the mutex) and emit the
queued event; a sentinel leaves the state untouched. -/
def appendStep1 (p : Payload α) (s : QState α) : QState α :=
  if p.id = "" then s
  else emitEvent { s with payloadQueue := s.payloadQueue ++ [p] }
    ("Payload Queued [id]: " ++ p.id)

/-- The flush condition of Append (src/queue.go line 119): the buffer has
reached MaxSize, or now is after the expiry deadline. -/
def flushCond (now : Int) (s : QState α) : Bool :=
  decide ((s.payloadQueue.length : Int) ≥ s.maxSize) || decide (now > s.expires)

/-- The state Append leaves behind when the flush fires (src/queue.go
lines 120-126): the buffer is reset and the deadline becomes now plus the
current MaxAge. -/
def flushedState (now : Int) (s1 : QState α) : QState α :=
  { s1 with payloadQueue := [], expires := now + s1.maxAge }

/-- Append (src/queue.go lines 108-129): step 1, then the flush condition;
when it holds, the buffer is swapped out (lines 120-125) and the deadline
is reset to now plus the current MaxAge (line 126). The goroutine spawned
on line 122 is represented by returning the extracted batch as some batch;
its body (Run) is a separate operation and in particular activeWork is not
touched here, exactly as in the source. -/
def appendQ (now : Int) (p : Payload α) (s : QState α) :
    QState α × Option (List (Payload α)) :=
  let s1 := appendStep1 p s
  if flushCond now s1 then (flushedState now s1, some s1.payloadQueue)
  else (s1, none)

/-- The Go error returned by Append: the single return statement
(src/queue.go line 128) always returns nil. -/
def appendErr (_now : Int) (_p : Payload α) (_s : QState α) : Option String :=
  none

/-- Sequentially append a list of payloads (as the intake loop at
src/queue.go lines 57-70 would), collecting the batches extracted along
the way in order. -/
def appendAll (now : Int) (ps : List (Payload α)) (s : QState α) :
    QState α × List (List (Payload α)) :=
  match ps with
  | [] => (s, [])
  | p :: rest =>
    let r := appendQ now p s
    let r2 := appendAll now rest r.1
    (r2.1, r.2.toList ++ r2.2)

/-- The atomic effects performed by the body of Run (src/queue.go lines
90-105), in source order: emit the running event (line 94), increment
activeWork (line 95), invoke the work handler on the batch data (lines
96-100), emit the finished event carrying the result code (line 101),
decrement activeWork (line 102). -/
inductive RunOp (α : Type) where
  | emitRunning (size : Nat) (t : Int)
  | incActive
  | invokeWork (pl : List α)
  | emitFinished (code : Int) (t : Int)
  | decActive
deriving DecidableEq

/-- Recognizer for the decrement effect of Run. -/
def RunOp.isDec : RunOp α → Bool
  | .decActive => true
  | _ => false

/-- Recognizer for the work-handler invocation effect of Run. -/
def RunOp.isInvoke : RunOp α → Bool
  | .invokeWork _ => true
  | _ => false

/-- The effect list of one execution of Run with the handler supplied
(src/queue.go lines 94-102), with the two time.Now() readings of the event
lines passed in as t1 and t2. -/
def runOps (w : List α → Int) (batch : List (Payload α)) (t1 t2 : Int) :
    List (RunOp α) :=
  [RunOp.emitRunning batch.length t1,
   RunOp.incActive,
   RunOp.invokeWork (batch.map Payload.data),
   RunOp.emitFinished (w (batch.map Payload.data)) t2,
   RunOp.decActive]

/-- Interpret one Run effect on the queue state. -/
def applyRunOp (s : QState α) : RunOp α → QState α
  | .emitRunning n t =>
    emitEvent s ("Batch Push [" ++ s.tag ++ "]: Running. Queue Size: "
      ++ toString n ++ " @ " ++ toString t)
  | .incActive => { s with activeWork := s.activeWork + 1 }
  | .invokeWork pl => { s with workCalls := s.workCalls ++ [pl] }
  | .emitFinished c t =>
    emitEvent s ("Batch Push [" ++ s.tag ++ "]: Finished. Result Code: "
      ++ toString c ++ " @ " ++ toString t)
  | .decActive => { s with activeWork := s.activeWork - 1 }

/-- Run (src/queue.go lines 90-105): returns the error for a missing Work
handler (lines 91-93), otherwise performs the effect list and returns nil.
The numeric result of the handler only flows into the finished event. -/
def runQ (work : Option (List α → Int)) (batch : List (Payload α))
    (t1 t2 : Int) (s : QState α) : QState α × Option String :=
  match work with
  | none => (s, some "no Work() is passed")
  | some w => ((runOps w batch t1 t2).foldl applyRunOp s, none)

/-- Exit condition of the drain loop in Close (src/queue.go lines
141-143): the loop for activeWork greater than zero terminates, and Close
proceeds to return, exactly when activeWork is at most zero. -/
def closeCanReturn (s : QState α) : Bool :=
  decide (s.activeWork ≤ 0)

/-- The atomic actions of one call of Append as laid out in the source
(src/queue.go lines 108-129), with the mutex operations explicit. -/
inductive AOp where
  | lock
  | unlock
  | appendItem
  | evQueued
  | checkCond
  | takeBatch
  | spawnRun
  | clearQueue
  | resetExpires
deriving DecidableEq, BEq

/-- The action sequence of one Append call on the path taken for the given
payload kind and condition outcome, transcribed from src/queue.go lines
108-129: lines 111-113 lock, append, unlock; line 114 emits; line 119
evaluates the condition (no lock held); lines 120-125 lock, take the
buffer, spawn Run, clear the buffer, unlock; line 126 resets the deadline
(after the unlock). -/
def appendOps (isSentinel fires : Bool) : List AOp :=
  (if isSentinel then [] else [AOp.lock, AOp.appendItem, AOp.unlock, AOp.evQueued])
    ++ [AOp.checkCond]
    ++ (if fires then
         [AOp.lock, AOp.takeBatch, AOp.spawnRun, AOp.clearQueue, AOp.unlock,
          AOp.resetExpires]
       else [])

/-- Net number of lock acquisitions minus releases in an action list. -/
def lockBalance (ops : List AOp) : Int :=
  ((ops.countP (fun a => a == AOp.lock) : Nat) : Int)
    - ((ops.countP (fun a => a == AOp.unlock) : Nat) : Int)

/-- Mutex hold depth immediately before the action at index i. -/
def lockDepthBefore (ops : List AOp) (i : Nat) : Int :=
  lockBalance (ops.take i)

/-- The state shared by concurrent Append callers: the buffer
(payloadQueue) and, as instrumentation, the batches handed to spawned Run
goroutines, in spawn order. -/
structure Shared (α : Type) where
  queue : List (Payload α)
  dispatched : List (List (Payload α))
deriving DecidableEq

/-- The append critical section of one caller (src/queue.go lines
111-113), executed atomically under the mutex. -/
def lockedAppend (p : Payload α) (sh : Shared α) : Shared α :=
  { sh with queue := sh.queue ++ [p] }

/-- One caller's read of the flush condition (src/queue.go line 119),
performed with the mutex released; only the size part matters here. -/
def fullCheck (maxSize : Int) (sh : Shared α) : Bool :=
  decide ((sh.queue.length : Int) ≥ maxSize)

/-- The extraction critical section of one caller (src/queue.go lines
120-125), executed atomically under the mutex: take the whole buffer,
hand it to a spawned Run, clear the buffer. -/
def lockedExtract (sh : Shared α) : Shared α :=
  { queue := [], dispatched := sh.dispatched ++ [sh.queue] }

/-- Payload A of the concrete scenarios. -/
def pA : Payload Nat := { id := "A", data := 1 }

/-- Payload B of the concrete scenarios. -/
def pB : Payload Nat := { id := "B", data := 2 }

/-- Payload C of the concrete scenarios. -/
def pC : Payload Nat := { id := "C", data := 3 }

/-- Payload D of the concrete scenarios. -/
def pD : Payload Nat := { id := "D", data := 4 }

/-- The four-payload submission sequence of the spec's worked example. -/
def psABCD : List (Payload Nat) := [pA, pB, pC, pD]

/-- A started queue state with MaxSize 3, MaxAge 10 and a far deadline. -/
def qs0 : QState Nat :=
  { tag := "t", maxSize := 3, maxAge := 10, expires := 1000,
    payloadQueue := [], activeWork := 0, hasEventFeed := false,
    events := [], workCalls := [] }

/-- The same state with MaxSize 1, so a single append triggers a flush. -/
def qsSize1 : QState Nat := { qs0 with maxSize := 1 }

/-- An unconfigured state: MaxSize, MaxAge and Tag all unset, with an
event feed attached. -/
def qsStart : QState Nat :=
  { qs0 with maxSize := 0, maxAge := 0, tag := "", hasEventFeed := true }

/-- A concrete work handler that ignores its batch and returns 0. -/
def workZero : List Nat → Int := fun _ => 0

/-- A concrete injected character source for tag generation. -/
def randA : Nat → Char := fun _ => 'a'

/-- A legal interleaving of two concurrent Append callers on a queue with
MaxSize 2, one submitting pA and the other pB, mirroring src/queue.go:
both append critical sections run (lines 111-113), then both callers read
the flush condition with the mutex free (line 119), then both extraction
critical sections run (lines 120-125). Returned: the two condition reads
and the list of dispatched batches. -/
def raceDemo : Bool × Bool × List (List (Payload Nat)) :=
  let sh1 := lockedAppend pA { queue := [], dispatched := [] }
  let sh2 := lockedAppend pB sh1
  let c1 := fullCheck 2 sh2
  let c2 := fullCheck 2 sh2
  let sh3 := lockedExtract sh2
  let sh4 := lockedExtract sh3
  (c1, c2, sh4.dispatched)

@[simp] theorem emitEvent_tag (s : QState α) (m : String) :
    (emitEvent s m).tag = s.tag := by
  unfold emitEvent; split <;> rfl

@[simp] theorem emitEvent_maxSize (s : QState α) (m : String) :
    (emitEvent s m).maxSize = s.maxSize := by
  unfold emitEvent; split <;> rfl

@[simp] theorem emitEvent_maxAge (s : QState α) (m : String) :
    (emitEvent s m).maxAge = s.maxAge := by
  unfold emitEvent; split <;> rfl

@[simp] theorem emitEvent_expires (s : QState α) (m : String) :
    (emitEvent s m).expires = s.expires := by
  unfold emitEvent; split <;> rfl

@[simp] theorem emitEvent_payloadQueue (s : QState α) (m : String) :
    (emitEvent s m).payloadQueue = s.payloadQueue := by
  unfold emitEvent; split <;> rfl

@[simp] theorem emitEvent_activeWork (s : QState α) (m : String) :
    (emitEvent s m).activeWork = s.activeWork := by
  unfold emitEvent; split <;> rfl

@[simp] theorem emitEvent_workCalls (s : QState α) (m : String) :
    (emitEvent s m).workCalls = s.workCalls := by
  unfold emitEvent; split <;> rfl

@[simp] theorem emitEvent_hasEventFeed (s : QState α) (m : String) :
    (emitEvent s m).hasEventFeed = s.hasEventFeed := by
  unfold emitEvent; split <;> rfl

theorem emitEvent_events_of_feed (s : QState α) (m : String)
    (h : s.hasEventFeed = true) :
    (emitEvent s m).events = s.events ++ [eventLine s.tag m] := by
  unfold emitEvent; rw [h]; simp

@[simp] theorem appendStep1_tag (p : Payload α) (s : QState α) :
    (appendStep1 p s).tag = s.tag := by
  unfold appendStep1; split <;> simp

@[simp] theorem appendStep1_maxSize (p : Payload α) (s : QState α) :
    (appendStep1 p s).maxSize = s.maxSize := by
  unfold appendStep1; split <;> simp

@[simp] theorem appendStep1_maxAge (p : Payload α) (s : QState α) :
    (appendStep1 p s).maxAge = s.maxAge := by
  unfold appendStep1; split <;> simp

@[simp] theorem appendStep1_expires (p : Payload α) (s : QState α) :
    (appendStep1 p s).expires = s.expires := by
  unfold appendStep1; split <;> simp

@[simp] theorem appendStep1_activeWork (p : Payload α) (s : QState α) :
    (appendStep1 p s).activeWork = s.activeWork := by
  unfold appendStep1; split <;> simp

theorem appendStep1_payloadQueue (p : Payload α) (s : QState α) :
    (appendStep1 p s).payloadQueue =
      if p.id = "" then s.payloadQueue else s.payloadQueue ++ [p] := by
  unfold appendStep1; split <;> simp

theorem appendStep1_payloadQueue_of_ne (p : Payload α) (s : QState α)
    (h : p.id ≠ "") :
    (appendStep1 p s).payloadQueue = s.payloadQueue ++ [p] := by
  rw [appendStep1_payloadQueue]; simp [h]

theorem flushCond_iff (now : Int) (s : QState α) :
    flushCond now s = true ↔
      ((s.payloadQueue.length : Int) ≥ s.maxSize ∨ now > s.expires) := by
  simp [flushCond]

theorem flushCond_eq_false (now : Int) (s : QState α) :
    flushCond now s = false ↔
      ((s.payloadQueue.length : Int) < s.maxSize ∧ now ≤ s.expires) := by
  simp [flushCond]

@[simp] theorem flushedState_tag (now : Int) (s : QState α) :
    (flushedState now s).tag = s.tag := rfl

@[simp] theorem flushedState_maxSize (now : Int) (s : QState α) :
    (flushedState now s).maxSize = s.maxSize := rfl

@[simp] theorem flushedState_maxAge (now : Int) (s : QState α) :
    (flushedState now s).maxAge = s.maxAge := rfl

@[simp] theorem flushedState_expires (now : Int) (s : QState α) :
    (flushedState now s).expires = now + s.maxAge := rfl

@[simp] theorem flushedState_payloadQueue (now : Int) (s : QState α) :
    (flushedState now s).payloadQueue = [] := rfl

@[simp] theorem flushedState_activeWork (now : Int) (s : QState α) :
    (flushedState now s).activeWork = s.activeWork := rfl

@[simp] theorem flushedState_events (now : Int) (s : QState α) :
    (flushedState now s).events = s.events := rfl

theorem appendQ_eq (now : Int) (p : Payload α) (s : QState α) :
    appendQ now p s =
      if flushCond now (appendStep1 p s) then
        (flushedState now (appendStep1 p s), some (appendStep1 p s).payloadQueue)
      else (appendStep1 p s, none) := rfl

theorem appendQ_of_flush (now : Int) (p : Payload α) (s : QState α)
    (h : flushCond now (appendStep1 p s) = true) :
    appendQ now p s =
      (flushedState now (appendStep1 p s), some (appendStep1 p s).payloadQueue) := by
  rw [appendQ_eq, h]; simp

theorem appendQ_of_no_flush (now : Int) (p : Payload α) (s : QState α)
    (h : flushCond now (appendStep1 p s) = false) :
    appendQ now p s = (appendStep1 p s, none) := by
  rw [appendQ_eq, h]; simp

theorem defaultTag_length (rand : Nat → Char) (n : Nat) :
    (defaultTag rand n).length = n := by
  simp [defaultTag, String.length]

theorem appendAll_no_flush (now : Int) :
    ∀ (ps : List (Payload α)) (s : QState α),
      (∀ p ∈ ps, p.id ≠ "") → now ≤ s.expires →
      ((s.payloadQueue.length + ps.length : Nat) : Int) < s.maxSize →
      (appendAll now ps s).2 = [] ∧
      (appendAll now ps s).1.payloadQueue = s.payloadQueue ++ ps ∧
      (appendAll now ps s).1.expires = s.expires ∧
      (appendAll now ps s).1.maxSize = s.maxSize ∧
      (appendAll now ps s).1.maxAge = s.maxAge := by
  intro ps
  induction ps with
  | nil => intro s _ _ _; simp [appendAll]
  | cons p rest ih =>
    intro s hids hage hlen
    have hid : p.id ≠ "" := hids p (by simp)
    have hq1 : (appendStep1 p s).payloadQueue = s.payloadQueue ++ [p] :=
      appendStep1_payloadQueue_of_ne p s hid
    simp only [List.length_cons] at hlen
    have hcond : flushCond now (appendStep1 p s) = false := by
      rw [flushCond_eq_false, hq1]
      constructor
      · simp only [List.length_append, List.length_cons, List.length_nil,
          appendStep1_maxSize]
        omega
      · rw [appendStep1_expires]; exact hage
    have hrec := ih (appendStep1 p s)
      (fun q hq => hids q (by simp [hq]))
      (by rw [appendStep1_expires]; exact hage)
      (by
        rw [hq1, appendStep1_maxSize]
        simp only [List.length_append, List.length_cons, List.length_nil]
        omega)
    simp only [appendAll, appendQ_of_no_flush now p s hcond]
    refine ⟨by simpa using hrec.1, ?_, ?_, ?_, ?_⟩
    · rw [hrec.2.1, hq1]; simp
    · rw [hrec.2.2.1, appendStep1_expires]
    · rw [hrec.2.2.2.1, appendStep1_maxSize]
    · rw [hrec.2.2.2.2, appendStep1_maxAge]

theorem appendAll_fill (now : Int) (k : Nat) :
    ∀ (ps : List (Payload α)) (s : QState α),
      s.maxSize = (k : Int) → now ≤ s.expires → 0 ≤ s.maxAge →
      (∀ p ∈ ps, p.id ≠ "") →
      s.payloadQueue.length < k →
      k ≤ s.payloadQueue.length + ps.length →
      s.payloadQueue.length + ps.length < 2 * k →
      (appendAll now ps s).2 =
        [s.payloadQueue ++ ps.take (k - s.payloadQueue.length)] ∧
      (appendAll now ps s).1.payloadQueue =
        ps.drop (k - s.payloadQueue.length) := by
  intro ps
  induction ps with
  | nil => intro s _ _ _ _ hlt hge _; simp at hlt hge; omega
  | cons p rest ih =>
    intro s hms hage hma hids hlt hge hsmall
    have hid : p.id ≠ "" := hids p (by simp)
    have hq1 : (appendStep1 p s).payloadQueue = s.payloadQueue ++ [p] :=
      appendStep1_payloadQueue_of_ne p s hid
    by_cases hfull : s.payloadQueue.length + 1 = k
    · -- the appended payload fills the buffer: this call flushes
      have hcond : flushCond now (appendStep1 p s) = true := by
        rw [flushCond_iff, hq1, appendStep1_maxSize, hms]
        left
        simp only [List.length_append, List.length_singleton]
        push_cast
        omega
      have hstep := appendQ_of_flush now p s hcond
      simp only [appendAll, hstep]
      have hrest := appendAll_no_flush now rest
        (flushedState now (appendStep1 p s))
        (fun q hq => hids q (by simp [hq]))
        (by simp only [flushedState_expires, appendStep1_maxAge]; omega)
        (by
          simp only [flushedState_payloadQueue, flushedState_maxSize,
            List.length_nil, Nat.zero_add, appendStep1_maxSize, hms]
          simp only [List.length_cons] at hsmall
          omega)
      refine ⟨?_, ?_⟩
      · rw [hrest.1, hq1]
        have htake : (p :: rest).take (k - s.payloadQueue.length) = [p] := by
          have h1 : k - s.payloadQueue.length = 1 := by omega
          rw [h1]
          simp [List.take_succ_cons]
        rw [htake]
        simp
      · rw [hrest.2.1]
        have hdrop : (p :: rest).drop (k - s.payloadQueue.length) = rest := by
          have h1 : k - s.payloadQueue.length = 1 := by omega
          rw [h1]
          simp
        rw [hdrop]
        simp
    · -- the buffer is still below MaxSize after this append
      have hcond : flushCond now (appendStep1 p s) = false := by
        rw [flushCond_eq_false, hq1, appendStep1_maxSize, appendStep1_expires, hms]
        constructor
        · simp only [List.length_append, List.length_singleton]
          push_cast
          omega
        · exact hage
      have hstep := appendQ_of_no_flush now p s hcond
      simp only [appendAll, hstep]
      have hlenq1 : (appendStep1 p s).payloadQueue.length
          = s.payloadQueue.length + 1 := by
        rw [hq1]; simp
      have hrec := ih (appendStep1 p s)
        (by rw [appendStep1_maxSize]; exact hms)
        (by rw [appendStep1_expires]; exact hage)
        (by rw [appendStep1_maxAge]; exact hma)
        (fun q hq => hids q (by simp [hq]))
        (by rw [hlenq1]; omega)
        (by rw [hlenq1]; simp only [List.length_cons] at hge; omega)
        (by rw [hlenq1]; simp only [List.length_cons] at hsmall; omega)
      rw [hlenq1] at hrec
      have hk2 : k - s.payloadQueue.length
          = (k - (s.payloadQueue.length + 1)) + 1 := by omega
      refine ⟨?_, ?_⟩
      · rw [hrec.1, hq1, hk2, List.take_succ_cons]
        simp
      · rw [hrec.2, hk2, List.drop_succ_cons]

theorem appendAll_head_batch (now : Int) (k : Nat) :
    ∀ (ps : List (Payload α)) (s : QState α),
      s.maxSize = (k : Int) → now ≤ s.expires →
      (∀ p ∈ ps, p.id ≠ "") →
      s.payloadQueue.length < k →
      k ≤ s.payloadQueue.length + ps.length →
      (appendAll now ps s).2.head? =
        some (s.payloadQueue ++ ps.take (k - s.payloadQueue.length)) := by
  intro ps
  induction ps with
  | nil => intro s _ _ _ hlt hge; simp at hge; omega
  | cons p rest ih =>
    intro s hms hage hids hlt hge
    have hid : p.id ≠ "" := hids p (by simp)
    have hq1 : (appendStep1 p s).payloadQueue = s.payloadQueue ++ [p] :=
      appendStep1_payloadQueue_of_ne p s hid
    have hlenq1 : (appendStep1 p s).payloadQueue.length
        = s.payloadQueue.length + 1 := by
      rw [hq1]; simp
    by_cases hfull : s.payloadQueue.length + 1 = k
    · -- the k-th payload arrives: this very call flushes, and whatever
      -- later appends dispatch, the head of the batch list is this batch
      have hcond : flushCond now (appendStep1 p s) = true := by
        rw [flushCond_iff, hq1, appendStep1_maxSize, hms]
        left
        simp only [List.length_append, List.length_cons, List.length_nil]
        omega
      have hstep := appendQ_of_flush now p s hcond
      simp only [appendAll, hstep]
      have hk1 : k - s.payloadQueue.length = 1 := by omega
      rw [hq1, hk1]
      simp [List.take_succ_cons]
    · -- still below the threshold: no flush here, recurse
      have hcond : flushCond now (appendStep1 p s) = false := by
        rw [flushCond_eq_false, hq1]
        constructor
        · simp only [List.length_append, List.length_cons, List.length_nil,
            appendStep1_maxSize, hms]
          omega
        · rw [appendStep1_expires]; exact hage
      have hstep := appendQ_of_no_flush now p s hcond
      simp only [appendAll, hstep]
      have hrec := ih (appendStep1 p s)
        (by rw [appendStep1_maxSize]; exact hms)
        (by rw [appendStep1_expires]; exact hage)
        (fun q hq => hids q (by simp [hq]))
        (by rw [hlenq1]; omega)
        (by rw [hlenq1]; simp only [List.length_cons] at hge; omega)
      rw [hlenq1, hq1] at hrec
      have hk2 : k - s.payloadQueue.length
          = (k - (s.payloadQueue.length + 1)) + 1 := by omega
      rw [hk2, List.take_succ_cons]
      simp only [Option.toList_none, List.nil_append]
      rw [hrec]
      simp

/-- C1: the claim states that in Append the flush-condition evaluation and
the swap execute inside the same critical section as the append of the
payload. The source does the opposite: in the action sequence of a
non-sentinel, flush-triggering Append call, the condition check at index 4
runs at mutex depth 0 (the lock taken for the append at index 1 was
released at index 2 before the extraction at index 6), and in the modelled
two-caller interleaving on a MaxSize-2 queue both callers observe a full
buffer and both extract and dispatch, the second dispatching an empty
batch. -/
theorem c1_append_sections_split :
    appendOps false true =
      [AOp.lock, AOp.appendItem, AOp.unlock, AOp.evQueued, AOp.checkCond,
       AOp.lock, AOp.takeBatch, AOp.spawnRun, AOp.clearQueue, AOp.unlock,
       AOp.resetExpires] ∧
    (appendOps false true).get? 4 = some AOp.checkCond ∧
    lockDepthBefore (appendOps false true) 4 = 0 ∧
    (appendOps false true).get? 1 = some AOp.appendItem ∧
    (appendOps false true).get? 2 = some AOp.unlock ∧
    (appendOps false true).get? 6 = some AOp.takeBatch ∧
    raceDemo = (true, true, [[pA, pB], []]) := by
  decide

/-- C2: with MaxSize k, starting from a started queue with an empty buffer
and no age flush intervening, for every sequence of at least k non-sentinel
submissions the first dispatched batch is exactly the first k payloads in
submission order; and when fewer than 2k payloads are submitted (as in the
spec's example) that batch is the only one and the remaining payloads stay
pending. -/
theorem c2_first_batch (k : Nat) (now : Int) (ps : List (Payload α))
    (s : QState α)
    (hempty : s.payloadQueue = []) (hk : s.maxSize = (k : Int))
    (hage : now ≤ s.expires) (hma : 0 ≤ s.maxAge)
    (hids : ∀ p ∈ ps, p.id ≠ "")
    (hk1 : 1 ≤ k) (hlen1 : k ≤ ps.length) :
    (appendAll now ps s).2.head? = some (ps.take k) ∧
    (ps.length < 2 * k →
      (appendAll now ps s).2 = [ps.take k] ∧
      (appendAll now ps s).1.payloadQueue = ps.drop k) := by
  constructor
  · have h := appendAll_head_batch now k ps s hk hage hids
      (by rw [hempty]; simpa using hk1)
      (by rw [hempty]; simpa using hlen1)
    rw [hempty] at h
    simpa using h
  · intro hlen2
    have h := appendAll_fill now k ps s hk hage hma hids
      (by rw [hempty]; simpa using hk1)
      (by rw [hempty]; simpa using hlen1)
      (by rw [hempty]; simpa using hlen2)
    rw [hempty] at h
    simpa using h

/-- C2 witness: the spec's worked example with MaxSize 3 and submissions
A, B, C, D: the first (and only) dispatched batch is exactly A, B, C and
D remains pending. -/
theorem c2_first_batch_witness :
    (appendAll 0 psABCD qs0).2.head? = some [pA, pB, pC] ∧
    (appendAll 0 psABCD qs0).2 = [[pA, pB, pC]] ∧
    (appendAll 0 psABCD qs0).1.payloadQueue = [pD] := by
  have h := c2_first_batch 3 0 psABCD qs0 rfl rfl (by decide) (by decide)
    (by decide) (by decide) (by decide)
  exact ⟨h.1.trans (by decide), (h.2 (by decide)).1.trans (by decide),
    (h.2 (by decide)).2.trans (by decide)⟩

/-- C3 counterexample: the claim states that a triggering Append
increments activeDispatches at the swap point. On a MaxSize-1 queue a
single Append extracts a batch, yet activeWork in the state Append leaves
behind is unchanged (still 0), not incremented: the increment lives in the
spawned Run (src/queue.go line 95), which has not executed. -/
theorem c3_increment_counterexample :
    (appendQ 0 pA qsSize1).2 = some [pA] ∧
    (appendQ 0 pA qsSize1).1.activeWork = qsSize1.activeWork ∧
    ¬ (appendQ 0 pA qsSize1).1.activeWork = qsSize1.activeWork + 1 := by
  decide

/-- C3 (amended): Append triggers a flush exactly when the buffer after
step 1 has reached MaxSize or now is past the deadline; when triggered the
whole buffer is extracted as the batch, the buffer becomes empty and the
deadline is reset to now plus MaxAge; when not triggered the buffer keeps
the appended contents and the deadline is unchanged; activeWork is never
changed by Append itself — the increment is the second action of the
spawned dispatch task — and tag, MaxSize, MaxAge are untouched. -/
theorem c3_amended (now : Int) (p : Payload α) (s : QState α)
    (w : List α → Int) (t1 t2 : Int) :
    ((appendQ now p s).2).isSome = flushCond now (appendStep1 p s) ∧
    (appendStep1 p s).payloadQueue =
      (if p.id = "" then s.payloadQueue else s.payloadQueue ++ [p]) ∧
    (appendQ now p s).2 =
      (if flushCond now (appendStep1 p s) then
        some (appendStep1 p s).payloadQueue else none) ∧
    (appendQ now p s).1.payloadQueue =
      (if flushCond now (appendStep1 p s) then []
       else (appendStep1 p s).payloadQueue) ∧
    (appendQ now p s).1.expires =
      (if flushCond now (appendStep1 p s) then now + s.maxAge else s.expires) ∧
    (appendQ now p s).1.activeWork = s.activeWork ∧
    (appendQ now p s).1.maxSize = s.maxSize ∧
    (appendQ now p s).1.maxAge = s.maxAge ∧
    (appendQ now p s).1.tag = s.tag ∧
    flushCond now (appendStep1 p s) =
      (decide (((appendStep1 p s).payloadQueue.length : Int) ≥ s.maxSize)
        || decide (now > s.expires)) ∧
    (runOps w ((appendStep1 p s).payloadQueue) t1 t2).get? 1 =
      some RunOp.incActive := by
  refine ⟨?_, appendStep1_payloadQueue p s, ?_, ?_, ?_, ?_, ?_, ?_, ?_, ?_, rfl⟩
  all_goals first
    | (rw [appendQ_eq]
       by_cases h : flushCond now (appendStep1 p s) <;> simp [h])
    | simp only [flushCond, appendStep1_maxSize, appendStep1_expires]

/-- C4: the claim states that after Close returns no further
processing-function invocation starts and every started dispatch has
completed. The source violates it: a MaxSize-1 Append extracts a batch and
spawns the dispatch, but leaves activeWork at 0, so the drain loop of a
concurrently entered Close (src/queue.go lines 141-143) can exit at once;
the spawned dispatch then runs after Close has returned, invoking the work
handler (workCalls grows) and only then moving activeWork up and back
down. -/
theorem c4_close_drain_race :
    (appendQ 0 pA qsSize1).2 = some [pA] ∧
    (appendQ 0 pA qsSize1).1.activeWork = 0 ∧
    closeCanReturn (appendQ 0 pA qsSize1).1 = true ∧
    (runQ (some workZero) [pA] 1 2 (appendQ 0 pA qsSize1).1).1.workCalls
      = [[1]] ∧
    (runQ (some workZero) [pA] 1 2 (appendQ 0 pA qsSize1).1).2 = none := by
  decide

/-- C5: Start returns an error exactly when no Work handler is supplied —
and then exactly the configuration error string of src/queue.go line 31 —
while Append always returns nil; no other error is surfaced by the
operational interface. -/
theorem c5_only_configuration_error (work : Option (List α → Int))
    (rand : Nat → Char) (now t : Int) (p : Payload α) (s s2 : QState α) :
    ((startQ work rand now s).2 = some "the Work function is not supplied"
      ↔ work = none) ∧
    ((startQ work rand now s).2 = none ↔ work.isSome = true) ∧
    appendErr t p s2 = none := by
  cases work <;> simp [startQ, appendErr]

/-- C6: starting with MaxSize 0, MaxAge 0 and an empty Tag (and a Work
handler supplied) yields effective values 100, 10 and a 12-character
(hence non-empty) generated tag, and the emitted diagnostics are exactly
one event per defaulted field followed by the started event. -/
theorem c6_start_defaults (w : List α → Int) (rand : Nat → Char)
    (now : Int) (s : QState α)
    (hms : s.maxSize = 0) (hma : s.maxAge = 0) (htag : s.tag = "")
    (hfeed : s.hasEventFeed = true) :
    (startQ (some w) rand now s).2 = none ∧
    (startQ (some w) rand now s).1.maxSize = 100 ∧
    (startQ (some w) rand now s).1.maxAge = 10 ∧
    (startQ (some w) rand now s).1.tag = defaultTag rand 12 ∧
    ((startQ (some w) rand now s).1.tag).length = 12 ∧
    0 < ((startQ (some w) rand now s).1.tag).length ∧
    (startQ (some w) rand now s).1.events = s.events ++
      [eventLine "" "MaxSize: Default value of 100 was used",
       eventLine "" "MaxAge: Default value of 10 was used",
       eventLine (defaultTag rand 12)
         ("Tag: Random value assigned is: " ++ defaultTag rand 12),
       eventLine (defaultTag rand 12) "BP Queue: Started"] := by
  simp [startQ, emitEvent, hms, hma, htag, hfeed, defaultTag_length]

/-- C6 witness: the defaults theorem applied to the concrete unconfigured
state, the constant character source and the zero handler. -/
theorem c6_start_defaults_witness :
    (startQ (some workZero) randA 0 qsStart).2 = none ∧
    (startQ (some workZero) randA 0 qsStart).1.maxSize = 100 ∧
    (startQ (some workZero) randA 0 qsStart).1.maxAge = 10 ∧
    (startQ (some workZero) randA 0 qsStart).1.tag = defaultTag randA 12 ∧
    ((startQ (some workZero) randA 0 qsStart).1.tag).length = 12 ∧
    0 < ((startQ (some workZero) randA 0 qsStart).1.tag).length ∧
    (startQ (some workZero) randA 0 qsStart).1.events = qsStart.events ++
      [eventLine "" "MaxSize: Default value of 100 was used",
       eventLine "" "MaxAge: Default value of 10 was used",
       eventLine (defaultTag randA 12)
         ("Tag: Random value assigned is: " ++ defaultTag randA 12),
       eventLine (defaultTag randA 12) "BP Queue: Started"] :=
  c6_start_defaults workZero randA 0 qsStart rfl rfl rfl rfl

/-- C7 counterexample: the claim states that Start sets the expiry
deadline from the post-default MaxAge, so that an unset MaxAge gives a
first deadline 10 seconds after start. In the source the deadline is set
on line 29, before the defaulting on lines 37-40: starting the
unconfigured state at time 0 succeeds with effective MaxAge 10, yet the
deadline is 0 — the start instant — and not 10. -/
theorem c7_expiry_counterexample :
    (startQ (some workZero) randA 0 qsStart).2 = none ∧
    (startQ (some workZero) randA 0 qsStart).1.maxAge = 10 ∧
    (startQ (some workZero) randA 0 qsStart).1.expires = 0 ∧
    ¬ (startQ (some workZero) randA 0 qsStart).1.expires = 0 + 10 := by
  decide

/-- C7 (amended): Start initializes the expiry deadline to now plus the
configured, pre-default MaxAge — the assignment precedes the defaulting —
so with MaxAge unset the first deadline equals the start instant; this
holds on both the success and the error path. -/
theorem c7_expiry_uses_preconfig_age (work : Option (List α → Int))
    (rand : Nat → Char) (now : Int) (s : QState α) :
    (startQ work rand now s).1.expires = now + s.maxAge := by
  cases work <;> simp [startQ, emitEvent, apply_ite QState.expires]

/-- C8: a sentinel payload (empty identifier) is never stored and emits no
queued event: Append with a sentinel leaves the event list untouched and
only evaluates the flush condition on the unchanged buffer — the buffer
survives unchanged unless the flush fires, in which case it is extracted
whole. -/
theorem c8_sentinel_not_stored (now : Int) (d : α) (s : QState α) :
    (appendQ now ⟨"", d⟩ s).1.events = s.events ∧
    (appendQ now ⟨"", d⟩ s).2 =
      (if flushCond now s then some s.payloadQueue else none) ∧
    (appendQ now ⟨"", d⟩ s).1.payloadQueue =
      (if flushCond now s then [] else s.payloadQueue) ∧
    (appendQ now ⟨"", d⟩ s).1.expires =
      (if flushCond now s then now + s.maxAge else s.expires) ∧
    (appendQ now ⟨"", d⟩ s).1.activeWork = s.activeWork ∧
    (appendQ now ⟨"", d⟩ s).1.maxSize = s.maxSize ∧
    (appendQ now ⟨"", d⟩ s).1.maxAge = s.maxAge ∧
    (appendQ now ⟨"", d⟩ s).1.tag = s.tag := by
  have hstep : appendStep1 (⟨"", d⟩ : Payload α) s = s := by
    simp [appendStep1]
  rw [appendQ_eq, hstep]
  by_cases h : flushCond now s <;> simp [h]

/-- C9: a dispatch with the handler supplied completes without error for
every handler result: Run records the numeric status only inside the
finished diagnostic event, invokes the handler exactly once on the batch
data (no retry), performs exactly one decrement of activeWork, and leaves
activeWork at its starting value once finished, so the batch counts as
completed for drain accounting whatever the status code. -/
theorem c9_run_status_advisory (w : List α → Int)
    (batch : List (Payload α)) (t1 t2 : Int) (s : QState α) :
    (runQ (some w) batch t1 t2 s).2 = none ∧
    (runQ (some w) batch t1 t2 s).1.workCalls =
      s.workCalls ++ [batch.map Payload.data] ∧
    (runQ (some w) batch t1 t2 s).1.activeWork = s.activeWork ∧
    (runOps w batch t1 t2).countP RunOp.isDec = 1 ∧
    (runOps w batch t1 t2).countP RunOp.isInvoke = 1 ∧
    (runQ (some w) batch t1 t2 s).1.events = s.events ++
      (if s.hasEventFeed = true then
        [eventLine s.tag ("Batch Push [" ++ s.tag ++ "]: Running. Queue Size: "
          ++ toString batch.length ++ " @ " ++ toString t1),
         eventLine s.tag ("Batch Push [" ++ s.tag ++ "]: Finished. Result Code: "
          ++ toString (w (batch.map Payload.data)) ++ " @ " ++ toString t2)]
       else []) := by
  have hdec : (runOps w batch t1 t2).countP RunOp.isDec = 1 := by
    simp [runOps, RunOp.isDec]
  have hinv : (runOps w batch t1 t2).countP RunOp.isInvoke = 1 := by
    simp [runOps, RunOp.isInvoke]
  refine ⟨rfl, ?_, ?_, hdec, hinv, ?_⟩ <;>
    cases hfeed : s.hasEventFeed <;>
      simp [runQ, runOps, applyRunOp, emitEvent, hfeed]

/-- C10: for MaxSize at least 1, the buffer a sequential Append call
leaves behind is always strictly below MaxSize: the call that reaches the
threshold flushes the whole buffer within the same call. -/
theorem c10_buffer_below_max (now : Int) (p : Payload α) (s : QState α)
    (h : 1 ≤ s.maxSize) :
    (((appendQ now p s).1.payloadQueue.length : Int)) < s.maxSize := by
  rw [appendQ_eq]
  by_cases hc : flushCond now (appendStep1 p s)
  · simp [hc]; omega
  · have := (flushCond_eq_false now (appendStep1 p s)).mp
      (by simpa using hc)
    simp [hc]
    have hms : (appendStep1 p s).maxSize = s.maxSize := appendStep1_maxSize p s
    omega

/-- C10 witness: the bound at a concrete below-threshold append. -/
theorem c10_buffer_below_max_witness :
    1 ≤ qs0.maxSize ∧
    (((appendQ 0 pA qs0).1.payloadQueue.length : Int)) < qs0.maxSize :=
  ⟨by decide, c10_buffer_below_max 0 pA qs0 (by decide)⟩
